import Mathlib

/-!
Verification of the streaming translation engine of the gemini proxy
(`src/api/proxy.js`).

The development shallowly embeds the proxy's code:

* a small JSON value type `JValue` together with `parseJson`, modelling the
  platform `JSON.parse` on the fragment the proxy exchanges (objects, arrays,
  strings with escapes, numbers, booleans, null);
* JavaScript optional-chaining field/index access (`jsField`, `jsIndex0`) and
  JavaScript truthiness (`truthy`), used by the proxy's extraction expressions;
* `processLine`, the per-line translator of the streaming path;
* `extractAll` / `loopChunks` / `streamRun`, the read-loop of the streaming
  handler (buffer accumulation, newline splitting, end-of-input flush and
  termination event, and the transport-error path);
* `convertOpenAIToGoogle` and `convertGoogleToOpenAI`, the request and
  non-streaming response translators.

Byte streams are modelled after text decoding, as lists of characters; the
platform `TextDecoder` with streaming semantics is segmentation invariant, so
the logical byte sequence of a stream is its decoded character sequence.
-/

set_option autoImplicit false

namespace GeminiProxy

/-- JSON values, as produced by `JSON.parse`.  Object fields keep their
source order; duplicate keys are resolved by `lookupField` taking the last
binding, as `JSON.parse` does. -/
inductive JValue where
  | null : JValue
  | bool (b : Bool) : JValue
  | num (q : Rat) : JValue
  | str (s : String) : JValue
  | arr (elems : List JValue) : JValue
  | obj (fields : List (String × JValue)) : JValue

/-- JSON whitespace accepted between tokens by `JSON.parse`. -/
def isJsonWs (c : Char) : Bool :=
  c = ' ' || c = '\t' || c = '\n' || c = '\r'

/-- Drop leading JSON whitespace. -/
def skipWs (s : List Char) : List Char :=
  s.dropWhile isJsonWs

/-- Value of a hexadecimal digit. -/
def hexVal (c : Char) : Option Nat :=
  if '0' ≤ c ∧ c ≤ '9' then some (c.toNat - '0'.toNat)
  else if 'a' ≤ c ∧ c ≤ 'f' then some (c.toNat - 'a'.toNat + 10)
  else if 'A' ≤ c ∧ c ≤ 'F' then some (c.toNat - 'A'.toNat + 10)
  else none

/-- Parse the body of a JSON string literal (after the opening quote),
returning the decoded characters and the input after the closing quote. -/
def parseStrChars : List Char → Option (List Char × List Char)
  | [] => none
  | '"' :: rest => some ([], rest)
  | '\\' :: '"' :: rest => (parseStrChars rest).map (fun p => ('"' :: p.1, p.2))
  | '\\' :: '\\' :: rest => (parseStrChars rest).map (fun p => ('\\' :: p.1, p.2))
  | '\\' :: '/' :: rest => (parseStrChars rest).map (fun p => ('/' :: p.1, p.2))
  | '\\' :: 'b' :: rest => (parseStrChars rest).map (fun p => ('\x08' :: p.1, p.2))
  | '\\' :: 'f' :: rest => (parseStrChars rest).map (fun p => ('\x0c' :: p.1, p.2))
  | '\\' :: 'n' :: rest => (parseStrChars rest).map (fun p => ('\n' :: p.1, p.2))
  | '\\' :: 'r' :: rest => (parseStrChars rest).map (fun p => ('\r' :: p.1, p.2))
  | '\\' :: 't' :: rest => (parseStrChars rest).map (fun p => ('\t' :: p.1, p.2))
  | '\\' :: 'u' :: a :: b :: c :: d :: rest =>
    match hexVal a, hexVal b, hexVal c, hexVal d with
    | some va, some vb, some vc, some vd =>
      (parseStrChars rest).map
        (fun p => (Char.ofNat (va * 4096 + vb * 256 + vc * 16 + vd) :: p.1, p.2))
    | _, _, _, _ => none
  | '\\' :: _ => none
  | c :: rest => (parseStrChars rest).map (fun p => (c :: p.1, p.2))

/-- Numeric value of a list of decimal digits. -/
def digitsToNat (ds : List Char) : Nat :=
  ds.foldl (fun acc c => acc * 10 + (c.toNat - '0'.toNat)) 0

/-- Parse a JSON number (optional minus, integer part, optional fraction,
optional exponent) into a rational. -/
def parseNumber (s : List Char) : Option (Rat × List Char) :=
  let (neg, s1) := match s with
    | '-' :: r => (true, r)
    | _ => (false, s)
  let intDs := s1.takeWhile (fun c => c.isDigit)
  let s2 := s1.dropWhile (fun c => c.isDigit)
  if intDs = [] then none else
  let (fracDs, s3) := match s2 with
    | '.' :: r => (r.takeWhile (fun c => c.isDigit), r.dropWhile (fun c => c.isDigit))
    | _ => ([], s2)
  if s2 ≠ [] ∧ s2.head? = some '.' ∧ fracDs = [] then none else
  let mant : Rat :=
    (digitsToNat intDs : Rat) + (digitsToNat fracDs : Rat) / ((10 : Rat) ^ fracDs.length)
  let signed : Rat := if neg then -mant else mant
  match s3 with
  | 'e' :: r => parseNumberExp signed r
  | 'E' :: r => parseNumberExp signed r
  | _ => some (signed, s3)
where
  parseNumberExp (m : Rat) (r : List Char) : Option (Rat × List Char) :=
    let (eneg, r1) := match r with
      | '-' :: rr => (true, rr)
      | '+' :: rr => (false, rr)
      | _ => (false, r)
    let expDs := r1.takeWhile (fun c => c.isDigit)
    let r2 := r1.dropWhile (fun c => c.isDigit)
    if expDs = [] then none
    else
      let e : Int := if eneg then -(digitsToNat expDs : Int) else (digitsToNat expDs : Int)
      some (m * (10 : Rat) ^ e, r2)

mutual

/-- Parse one JSON value; `fuel` bounds the nesting depth (callers supply the
input length, which always suffices). -/
def parseVal : Nat → List Char → Option (JValue × List Char)
  | 0, _ => none
  | fuel + 1, s =>
    match skipWs s with
    | [] => none
    | 'n' :: 'u' :: 'l' :: 'l' :: r => some (.null, r)
    | 't' :: 'r' :: 'u' :: 'e' :: r => some (.bool true, r)
    | 'f' :: 'a' :: 'l' :: 's' :: 'e' :: r => some (.bool false, r)
    | '"' :: r => (parseStrChars r).map (fun p => (.str (String.mk p.1), p.2))
    | '[' :: r =>
      (match skipWs r with
       | ']' :: r2 => some (.arr [], r2)
       | _ =>
         match parseVal fuel r with
         | none => none
         | some (x, r2) =>
           match parseArrTail fuel r2 with
           | none => none
           | some (xs, r3) => some (.arr (x :: xs), r3))
    | '{' :: r =>
      (match skipWs r with
       | '}' :: r2 => some (.obj [], r2)
       | _ =>
         match parseMember fuel r with
         | none => none
         | some (kv, r2) =>
           match parseObjTail fuel r2 with
           | none => none
           | some (kvs, r3) => some (.obj (kv :: kvs), r3))
    | rest => (parseNumber rest).map (fun p => (.num p.1, p.2))

/-- Parse the tail of a JSON array after one element: a comma-separated list
of further elements and the closing bracket. -/
def parseArrTail : Nat → List Char → Option (List JValue × List Char)
  | 0, _ => none
  | fuel + 1, s =>
    match skipWs s with
    | ',' :: r =>
      (match parseVal fuel r with
       | none => none
       | some (x, r2) =>
         match parseArrTail fuel r2 with
         | none => none
         | some (xs, r3) => some (x :: xs, r3))
    | ']' :: r => some ([], r)
    | _ => none

/-- Parse one `"key": value` member of a JSON object. -/
def parseMember : Nat → List Char → Option ((String × JValue) × List Char)
  | 0, _ => none
  | fuel + 1, s =>
    match skipWs s with
    | '"' :: r =>
      (match parseStrChars r with
       | none => none
       | some (key, r2) =>
         match skipWs r2 with
         | ':' :: r3 =>
           (match parseVal fuel r3 with
            | none => none
            | some (v, r4) => some ((String.mk key, v), r4))
         | _ => none)
    | _ => none

/-- Parse the tail of a JSON object after one member. -/
def parseObjTail : Nat → List Char → Option (List (String × JValue) × List Char)
  | 0, _ =>  none
  | fuel + 1, s =>
    match skipWs s with
    | ',' :: r =>
      (match parseMember fuel r with
       | none => none
       | some (kv, r2) =>
         match parseObjTail fuel r2 with
         | none => none
         | some (kvs, r3) => some (kv :: kvs, r3))
    | '}' :: r => some ([], r)
    | _ => none

end

/-- Model of `JSON.parse` on a whole document: one value, possibly surrounded
by whitespace, and nothing after it. -/
def parseJson (s : List Char) : Option JValue :=
  match parseVal (s.length + 1) s with
  | some (v, r) => if skipWs r = [] then some v else none
  | none => none

/-- Lookup of a key in a parsed object's field list; the last binding wins,
matching how `JSON.parse` builds JavaScript objects with duplicate keys. -/
def lookupField (fs : List (String × JValue)) (key : String) : Option JValue :=
  fs.foldl (fun acc kv => if kv.1 = key then some kv.2 else acc) none

/-- JavaScript property access `v?.key` as it behaves on parsed JSON data:
defined on objects, `undefined` (`none`) on everything else. -/
def jsField (v : JValue) (key : String) : Option JValue :=
  match v with
  | .obj fs => lookupField fs key
  | _ => none

/-- JavaScript element access `v?.[0]` on parsed JSON data: the first array
element, the `"0"` field of an object, the first character of a string. -/
def jsIndex0 (v : JValue) : Option JValue :=
  match v with
  | .arr (x :: _) => some x
  | .arr [] => none
  | .obj fs => lookupField fs ("0")
  | .str s =>
    (match s.data with
     | [] => none
     | c :: _ => some (.str (String.mk [c])))
  | _ => none

/-- JavaScript truthiness of a parsed JSON value (`NaN` cannot arise from
`JSON.parse`). -/
def truthy : JValue → Bool
  | .null => false
  | .bool b => b
  | .num q => q != 0
  | .str s => s != ""
  | .arr _ => true
  | .obj _ => true

/-- Characters removed by JavaScript `String.prototype.trim` (the ASCII
range, which is all that server-sent event lines contain). -/
def isWs (c : Char) : Bool :=
  c = ' ' || c = '\t' || c = '\n' || c = '\r' || c = '\x0b' || c = '\x0c'

/-- Truthiness of `line.trim()`: the line contains some non-whitespace
character. -/
def trimNonempty (l : List Char) : Bool :=
  l.any (fun c => !isWs c)

/-- JavaScript `l.startsWith(p)`. -/
def strStarts (p l : List Char) : Bool :=
  l.take p.length == p

/-- JavaScript substring containment, `hay.includes(needle)`. -/
def strHas (needle : List Char) : List Char → Bool
  | [] => needle == []
  | c :: rest => strStarts needle (c :: rest) || strHas needle rest

/-- Model resolution at `proxy.js:37`: the requested name passes through when
it contains `gemini`, otherwise the default backend model is substituted; an
absent model field short-circuits `?.includes` to `undefined`, which is falsy. -/
def resolveModel (m : Option String) : String :=
  match m with
  | some s => if strHas (("gemini").data) s.data then s else ("gemini-pro")
  | none => ("gemini-pro")

/-- Streaming chunk written to the client, mirroring the object literal at
`proxy.js:147`; the single choice's fields are inlined (`choiceIndex`,
`deltaContent`, `finishReason`). -/
structure OpenAIChunk where
  id : String
  object : String
  created : Rat
  model : String
  choiceIndex : Nat
  deltaContent : JValue
  finishReason : Option String

/-- Chunk construction of `proxy.js:147-159`: timestamp-seeded id, fixed
object tag, the resolved model, one choice at index 0 with a null finish
reason and the extracted content as the delta. -/
def mkChunk (model : String) (now : Nat) (content : JValue) : OpenAIChunk :=
  ⟨("chatcmpl-") ++ toString now, ("chat.completion.chunk"), (now : Rat) / 1000,
    model, 0, content, none⟩

/-- One `res.write` of the streaming path: either the termination event
`data: [DONE]` plus blank line, or one serialized chunk event. -/
inductive Emit where
  | term : Emit
  | content (c : OpenAIChunk) : Emit

/-- Predicate selecting termination events. -/
def isTerm : Emit → Bool
  | .term => true
  | .content _ => false

/-- Predicate selecting content events. -/
def isContent : Emit → Bool
  | .term => false
  | .content _ => true

/-- Prefix recognized by the event translator (`proxy.js:129`). -/
def dataPre : List Char := ("data: ").data

/-- Extraction expression of `proxy.js:144`:
`googleChunk.candidates?.[0]?.content?.parts?.[0]?.text`. -/
def extractChunkText (j : JValue) : Option JValue :=
  ((((jsField j ("candidates")).bind jsIndex0).bind
      (fun v => jsField v ("content"))).bind
        (fun v => jsField v ("parts"))).bind jsIndex0 |>.bind
          (fun v => jsField v ("text"))

/-- Per-line event translator `processLine` (`proxy.js:128-171`): skip blank
or non-`data: ` lines; write the termination event for the `[DONE]` token and
return; otherwise parse the JSON payload (a parse failure is logged and the
line skipped) and, when the extracted text is truthy, write one chunk. -/
def processLine (model : String) (now : Nat) (line : List Char) : List Emit :=
  if ¬ trimNonempty line then []
  else if ¬ strStarts dataPre line then []
  else
    let d := line.drop 6
    if d = ("[DONE]").data then [.term]
    else
      match parseJson d with
      | none => []
      | some j =>
        match extractChunkText j with
        | none => []
        | some content =>
          if truthy content then [.content (mkChunk model now content)] else []

/-- Newline splitting of the read loop (`proxy.js:111-118`): all complete
lines of a buffer, in order, and the remainder after the last newline. -/
def extractAll : List Char → List (List Char) × List Char
  | [] => ([], [])
  | c :: rest =>
    if c = '\n' then ([] :: (extractAll rest).1, (extractAll rest).2)
    else
      match extractAll rest with
      | ([], r) => ([], c :: r)
      | (l :: t, r) => ((c :: l) :: t, r)

/-- Per-line action of the read loop (`proxy.js:115-117`): a complete line is
handed to the action only when `line.trim()` is truthy. -/
def lineEmits {α : Type} (f : List Char → List α) (l : List Char) : List α :=
  if trimNonempty l then f l else []

/-- The read loop over the delivered chunks (`proxy.js:96-119`): each chunk is
appended to the buffer, every complete line is processed in order, and the
remainder is carried to the next read.  Returns the final buffer and the
concatenated per-line outputs. -/
def loopChunks {α : Type} (f : List Char → List α) :
    List Char → List (List Char) → List Char × List α
  | buf, [] => (buf, [])
  | buf, c :: cs =>
    let e := extractAll (buf ++ c)
    let rest := loopChunks f e.2 cs
    (rest.1, (e.1.map (lineEmits f)).flatten ++ rest.2)

/-- How one upstream read loop run ends: normal end-of-input (`done`), or a
transport error thrown by a read. -/
inductive StreamEnd where
  | eof : StreamEnd
  | transportError : StreamEnd

/-- Events written during the loop body only (before end-of-input handling). -/
def streamLoopEmits (model : String) (now : Nat) (chunks : List (List Char)) :
    List Emit :=
  (loopChunks (processLine model now) [] chunks).2

/-- The full streaming path (`proxy.js:93-124`): on end-of-input the non-empty
remainder is flushed through `processLine` and one final termination event is
written; on a transport error the `catch` logs and the `finally` ends the
response with exactly the events already written. -/
def streamRun (model : String) (now : Nat) (chunks : List (List Char))
    (ending : StreamEnd) : List Emit :=
  let st := loopChunks (processLine model now) [] chunks
  match ending with
  | .eof => st.2 ++ (if st.1 = [] then [] else processLine model now st.1) ++ [.term]
  | .transportError => st.2

/-- Lines delivered past the whitespace filter to the event translation core:
the loop checks `line.trim()` before calling `processLine`, and the
end-of-input flush reaches `processLine`, whose own first guard drops a
whitespace-only remainder. -/
def reassembledLines (chunks : List (List Char)) : List (List Char) :=
  let st := loopChunks (fun l => [l]) [] chunks
  st.2 ++ (if trimNonempty st.1 then [st.1] else [])

/-- Complete lines of a whole character sequence, including a non-empty
trailing remainder with no final newline. -/
def allLines (s : List Char) : List (List Char) :=
  (extractAll s).1 ++ (if (extractAll s).2 = [] then [] else [(extractAll s).2])

/-- The backend termination line, `data: [DONE]`. -/
def doneLine : List Char := ("data: [DONE]").data

/-- Boolean test for the backend termination line. -/
def isDoneLine (l : List Char) : Bool :=
  l == doneLine

/-- One inbound chat message. -/
structure OAMessage where
  role : String
  content : String

/-- The inbound request fields the proxy reads (`proxy.js:33-38, 190-204`). -/
structure OpenAIRequest where
  messages : List OAMessage
  model : Option String
  stream : Bool
  temperature : Option Rat

/-- One backend prompt part. -/
structure GPart where
  text : String

/-- One backend content element. -/
structure GContent where
  parts : List GPart

/-- Backend generation configuration. -/
structure GenerationConfig where
  temperature : Rat

/-- The translated backend request body. -/
structure GoogleRequest where
  contents : List GContent
  generationConfig : GenerationConfig

/-- JavaScript `x || d` on an optional number: an absent field is `undefined`
and falsy, and the number `0` is falsy as well. -/
def jsOrNum (x : Option Rat) (d : Rat) : Rat :=
  match x with
  | some t => if t = 0 then d else t
  | none => d

/-- Request translator `convertOpenAIToGoogle` (`proxy.js:190-205`): message
contents joined by newlines into one flattened prompt, temperature defaulted
through `||`. -/
def convertOpenAIToGoogle (r : OpenAIRequest) : GoogleRequest :=
  { contents := [⟨[⟨String.intercalate ("\n") (r.messages.map (fun m => m.content))⟩]⟩],
    generationConfig := ⟨jsOrNum r.temperature (7 / 10)⟩ }

/-- Result of the non-streaming response translator: either an error envelope
(which carries no `choices` field) or one completion document. -/
inductive OpenAIResponse where
  | errorEnv (message : Option JValue) (etype : String) (code : Option JValue) :
      OpenAIResponse
  | completion (id : String) (created : Rat) (model : String) (content : JValue)
      (finishReason : String)
      (promptTokens completionTokens totalTokens : Int) : OpenAIResponse

/-- JavaScript `x || d` on an optional JSON value, by truthiness. -/
def jsOrJ (x : Option JValue) (d : JValue) : JValue :=
  match x with
  | some v => if truthy v then v else d
  | none => d

/-- Content extraction of the non-streaming path (`proxy.js:220`):
`googleResponse.candidates?.[0]?.content`. -/
def googleContent (g : JValue) : Option JValue :=
  ((jsField g ("candidates")).bind jsIndex0).bind (fun v => jsField v ("content"))

/-- The no-error branch of `convertGoogleToOpenAI` (`proxy.js:219-249`): a
missing or falsy content yields the distinct `invalid_response_error`
envelope; otherwise one completion with finish reason `stop`, the first
part's text (or the empty string), and the `-1` usage sentinels. -/
def convertNoError (g : JValue) (model : String) (now : Nat) : OpenAIResponse :=
  match googleContent g with
  | some c =>
    if truthy c then
      .completion (("chatcmpl-") ++ toString now) ((now : Rat) / 1000) model
        (jsOrJ (((jsField c ("parts")).bind jsIndex0).bind (fun v => jsField v ("text")))
          (.str ("")))
        ("stop") (-1) (-1) (-1)
    else .errorEnv (some (.str ("No content generated"))) ("invalid_response_error") none
  | none => .errorEnv (some (.str ("No content generated"))) ("invalid_response_error") none

/-- Non-streaming response translator `convertGoogleToOpenAI`
(`proxy.js:207-250`): a truthy backend `error` object becomes an
`invalid_request_error` envelope carrying the backend's message and numeric
code; otherwise the content path is taken. -/
def convertGoogleToOpenAI (g : JValue) (model : String) (now : Nat) : OpenAIResponse :=
  match jsField g ("error") with
  | some e =>
    if truthy e then
      .errorEnv (jsField e ("message")) ("invalid_request_error") (jsField e ("code"))
    else convertNoError g model now
  | none => convertNoError g model now

/-! ### Lemmas about newline splitting -/

theorem extractAll_nil : extractAll [] = ([], []) := rfl

theorem extractAll_newline (rest : List Char) :
    extractAll ('\n' :: rest) = ([] :: (extractAll rest).1, (extractAll rest).2) := by
  simp [extractAll]

theorem extractAll_cons_ne (c : Char) (rest : List Char) (hc : c ≠ '\n') :
    extractAll (c :: rest) =
      (match extractAll rest with
       | ([], r) => ([], c :: r)
       | (l :: t, r) => ((c :: l) :: t, r)) := by
  simp [extractAll, hc]

theorem extractAll_append (x y : List Char) :
    extractAll (x ++ y) =
      ((extractAll x).1 ++ (extractAll ((extractAll x).2 ++ y)).1,
       (extractAll ((extractAll x).2 ++ y)).2) := by
  induction x with
  | nil => simp [extractAll]
  | cons c x' ih =>
    rw [List.cons_append]
    by_cases hc : c = '\n'
    · subst hc
      rw [extractAll_newline, extractAll_newline, ih]
      simp
    · rcases hx' : extractAll x' with ⟨ls, r⟩
      rw [hx'] at ih
      cases ls with
      | nil =>
        have h1 : extractAll (c :: x') = ([], c :: r) := by
          rw [extractAll_cons_ne c x' hc, hx']
        have h2 : extractAll (x' ++ y) = extractAll (r ++ y) := by
          rw [ih]; simp
        rw [extractAll_cons_ne c (x' ++ y) hc, h2, h1]
        simp only [List.cons_append]
        rw [extractAll_cons_ne c (r ++ y) hc]
        rcases extractAll (r ++ y) with ⟨ls2, r2⟩
        cases ls2 <;> simp
      | cons l t =>
        have h1 : extractAll (c :: x') = ((c :: l) :: t, r) := by
          rw [extractAll_cons_ne c x' hc, hx']
        rw [extractAll_cons_ne c (x' ++ y) hc, ih, h1]
        simp

theorem extractAll_rest_no_newline (s : List Char) : '\n' ∉ (extractAll s).2 := by
  induction s with
  | nil => simp [extractAll]
  | cons c rest ih =>
    by_cases hc : c = '\n'
    · subst hc; rw [extractAll_newline]; exact ih
    · rw [extractAll_cons_ne c rest hc]
      rcases h : extractAll rest with ⟨ls, r⟩
      rw [h] at ih
      cases ls with
      | nil =>
        simp only []
        intro hmem
        rcases List.mem_cons.mp hmem with h1 | h1
        · exact hc h1.symm
        · exact ih h1
      | cons l t => exact ih

theorem extractAll_of_no_newline (l : List Char) (h : '\n' ∉ l) :
    extractAll l = ([], l) := by
  induction l with
  | nil => rfl
  | cons c rest ih =>
    have hc : c ≠ '\n' := fun he => h (he ▸ List.mem_cons_self c rest)
    have h' : '\n' ∉ rest := fun hm => h (List.mem_cons_of_mem c hm)
    rw [extractAll_cons_ne c rest hc, ih h']

theorem extractAll_line (l rest : List Char) (h : '\n' ∉ l) :
    extractAll (l ++ '\n' :: rest) = (l :: (extractAll rest).1, (extractAll rest).2) := by
  induction l with
  | nil => simp [extractAll_newline]
  | cons c t ih =>
    have hc : c ≠ '\n' := fun he => h (he ▸ List.mem_cons_self c t)
    have h' : '\n' ∉ t := fun hm => h (List.mem_cons_of_mem c hm)
    rw [List.cons_append, extractAll_cons_ne c _ hc, ih h']

/-! ### Lemmas about the read loop -/

theorem loopChunks_eq {α : Type} (f : List Char → List α) (chunks : List (List Char))
    (buf : List Char) (hbuf : '\n' ∉ buf) :
    loopChunks f buf chunks =
      ((extractAll (buf ++ chunks.flatten)).2,
       ((extractAll (buf ++ chunks.flatten)).1.map (lineEmits f)).flatten) := by
  induction chunks generalizing buf with
  | nil =>
    simp [loopChunks, extractAll_of_no_newline buf hbuf]
  | cons c cs ih =>
    have hrest : '\n' ∉ (extractAll (buf ++ c)).2 := extractAll_rest_no_newline _
    simp only [loopChunks]
    rw [ih _ hrest]
    have happ := extractAll_append (buf ++ c) cs.flatten
    rw [List.flatten_cons, ← List.append_assoc, happ]
    simp

theorem processLine_of_not_trim (m : String) (now : Nat) (l : List Char)
    (h : trimNonempty l = false) : processLine m now l = [] := by
  simp [processLine, h]

theorem lineEmits_processLine (m : String) (now : Nat) :
    lineEmits (processLine m now) = processLine m now := by
  funext l
  unfold lineEmits
  by_cases h : trimNonempty l
  · rw [if_pos h]
  · rw [if_neg h, processLine_of_not_trim m now l (by simpa using h)]

theorem streamRun_eof_eq (m : String) (now : Nat) (chunks : List (List Char)) :
    streamRun m now chunks .eof =
      ((allLines chunks.flatten).map (processLine m now)).flatten ++ [Emit.term] := by
  unfold streamRun allLines
  rw [loopChunks_eq _ _ [] (by simp), lineEmits_processLine]
  simp only [List.nil_append, List.map_append, List.flatten_append, List.append_assoc]
  congr 1
  congr 1
  by_cases h : (extractAll chunks.flatten).2 = []
  · simp [h]
  · simp [h]

theorem streamRun_err_eq (m : String) (now : Nat) (chunks : List (List Char)) :
    streamRun m now chunks .transportError =
      ((extractAll chunks.flatten).1.map (processLine m now)).flatten := by
  unfold streamRun
  rw [loopChunks_eq _ _ [] (by simp), lineEmits_processLine]
  simp

theorem flatten_map_singleton_filter (ls : List (List Char)) :
    (ls.map (lineEmits (fun l => [l]))).flatten = ls.filter trimNonempty := by
  induction ls with
  | nil => rfl
  | cons l t ih =>
    by_cases h : trimNonempty l <;>
      simp [lineEmits, h, ih, List.filter_cons]

theorem reassembledLines_eq (chunks : List (List Char)) :
    reassembledLines chunks = (allLines chunks.flatten).filter trimNonempty := by
  unfold reassembledLines allLines
  rw [loopChunks_eq _ _ [] (by simp)]
  simp only [List.nil_append, List.filter_append]
  rw [flatten_map_singleton_filter]
  congr 1
  by_cases h : (extractAll chunks.flatten).2 = []
  · simp [h, trimNonempty]
  · by_cases ht : trimNonempty (extractAll chunks.flatten).2 <;> simp [h, ht]

/-! ### Counting termination events -/

theorem line_eq_doneLine (l : List Char) (h1 : strStarts dataPre l = true)
    (h2 : l.drop 6 = ("[DONE]").data) : l = doneLine := by
  have ht : l.take 6 = dataPre := by
    have h3 : (l.take dataPre.length == dataPre) = true := h1
    exact beq_iff_eq.mp h3
  calc l = l.take 6 ++ l.drop 6 := (List.take_append_drop 6 l).symm
    _ = dataPre ++ ("[DONE]").data := by rw [ht, h2]
    _ = doneLine := by decide

theorem processLine_cases (m : String) (now : Nat) (l : List Char) :
    processLine m now l = [] ∨ (l = doneLine ∧ processLine m now l = [Emit.term]) ∨
      ∃ c, processLine m now l = [Emit.content c] := by
  unfold processLine
  split
  · exact Or.inl rfl
  next h1 =>
    split
    · exact Or.inl rfl
    next h2 =>
      dsimp only
      split
      next h3 =>
        have hs : strStarts dataPre l = true := by
          by_cases hq : strStarts dataPre l = true
          · exact hq
          · exact absurd hq (by simpa using h2)
        exact Or.inr (Or.inl ⟨line_eq_doneLine l hs h3, rfl⟩)
      next h3 =>
        split
        · exact Or.inl rfl
        · split
          · exact Or.inl rfl
          · split
            · exact Or.inr (Or.inr ⟨_, rfl⟩)
            · exact Or.inl rfl

theorem countTerm_processLine (m : String) (now : Nat) (l : List Char) :
    (processLine m now l).countP isTerm = if l = doneLine then 1 else 0 := by
  rcases processLine_cases m now l with h | ⟨hl, h⟩ | ⟨c, h⟩
  · rw [h]
    by_cases hd : l = doneLine
    · subst hd
      have hv : processLine m now doneLine = [Emit.term] := rfl
      rw [hv] at h
      simp at h
    · rw [if_neg hd]
      rfl
  · rw [h, if_pos hl]
    rfl
  · rw [h]
    by_cases hd : l = doneLine
    · subst hd
      have hv : processLine m now doneLine = [Emit.term] := rfl
      rw [hv] at h
      simp at h
    · rw [if_neg hd]
      simp [isTerm, List.countP_cons]

theorem countTerm_flatten (m : String) (now : Nat) (ls : List (List Char)) :
    ((ls.map (processLine m now)).flatten).countP isTerm = ls.countP isDoneLine := by
  induction ls with
  | nil => rfl
  | cons l t ih =>
    rw [List.map_cons, List.flatten_cons, List.countP_append, ih,
      List.countP_cons, countTerm_processLine]
    have : isDoneLine l = if l = doneLine then true else false := by
      by_cases h : l = doneLine <;> simp [isDoneLine, h]
    rw [this]
    by_cases h : l = doneLine
    · simp [h]
      omega
    · simp [h]

/-! ### Reductions of `processLine` on `data: `-prefixed lines -/

theorem trim_dataPre_append (p : List Char) : trimNonempty (dataPre ++ p) = true := by
  unfold trimNonempty
  rw [List.any_append]
  have h : dataPre.any (fun c => !isWs c) = true := by decide
  rw [h, Bool.true_or]

theorem strStarts_dataPre_append (p : List Char) :
    strStarts dataPre (dataPre ++ p) = true := by
  unfold strStarts
  rw [List.take_left]
  exact beq_self_eq_true dataPre

theorem drop6_dataPre_append (p : List Char) : (dataPre ++ p).drop 6 = p := by
  have h : dataPre.length = 6 := rfl
  rw [← h, List.drop_left]

theorem parseJson_done_token : parseJson (("[DONE]").data) = none := rfl

theorem parsed_ne_done (p : List Char) (j : JValue) (hp : parseJson p = some j) :
    p ≠ ("[DONE]").data := by
  intro he
  rw [he, parseJson_done_token] at hp
  exact Option.noConfusion hp

theorem processLine_parsed_some (m : String) (now : Nat) (p : List Char) (j c : JValue)
    (hp : parseJson p = some j) (hx : extractChunkText j = some c)
    (ht : truthy c = true) :
    processLine m now (dataPre ++ p) = [Emit.content (mkChunk m now c)] := by
  simp only [processLine, trim_dataPre_append, strStarts_dataPre_append,
    drop6_dataPre_append, hp, hx, ht, not_true, if_false, ite_true, ite_false,
    if_neg (parsed_ne_done p j hp)]

theorem processLine_parsed_none (m : String) (now : Nat) (p : List Char) (j : JValue)
    (hp : parseJson p = some j) (hx : extractChunkText j = none) :
    processLine m now (dataPre ++ p) = [] := by
  simp only [processLine, trim_dataPre_append, strStarts_dataPre_append,
    drop6_dataPre_append, hp, hx, not_true, if_false, ite_true, ite_false,
    if_neg (parsed_ne_done p j hp)]

theorem processLine_parsed_falsy (m : String) (now : Nat) (p : List Char) (j c : JValue)
    (hp : parseJson p = some j) (hx : extractChunkText j = some c)
    (ht : truthy c = false) :
    processLine m now (dataPre ++ p) = [] := by
  simp only [processLine, trim_dataPre_append, strStarts_dataPre_append,
    drop6_dataPre_append, hp, hx, ht, not_true, if_false, ite_true, ite_false,
    if_neg (parsed_ne_done p j hp)]
  rfl

theorem processLine_parse_fail (m : String) (now : Nat) (p : List Char)
    (hne : p ≠ ("[DONE]").data) (hp : parseJson p = none) :
    processLine m now (dataPre ++ p) = [] := by
  simp only [processLine, trim_dataPre_append, strStarts_dataPre_append,
    drop6_dataPre_append, hp, not_true, if_false, ite_true, ite_false,
    if_neg hne]

/-! ### Concrete values used by counterexamples and witnesses -/

/-- A content-bearing backend event payload with text `Hi`. -/
def hiPayload : List Char :=
  ("\x7b\"candidates\":[\x7b\"content\":\x7b\"parts\":[\x7b\"text\":\"Hi\"\x7d]\x7d\x7d]\x7d").data

/-- The parse of `hiPayload`. -/
def hiJson : JValue :=
  .obj [(("candidates"),
    .arr [.obj [(("content"), .obj [(("parts"),
      .arr [.obj [(("text"), .str ("Hi"))]])])]])]

/-- A well-formed backend event payload with no extractable text. -/
def noTextPayload : List Char := ("\x7b\"candidates\":[]\x7d").data

/-- The parse of `noTextPayload`. -/
def noTextJson : JValue := .obj [(("candidates"), .arr [])]

/-- A backend chunk containing a mid-stream termination line followed by a
content-bearing line, before physical end-of-input. -/
def midStreamDone : List Char :=
  ("data: [DONE]\ndata: \x7b\"candidates\":[\x7b\"content\":\x7b\"parts\":[\x7b\"text\":\"Hi\"\x7d]\x7d\x7d]\x7d\n").data

/-! ### Claims -/

/-- Claim C1, counterexample: the claim says the termination event is written
to the client exactly once per stream no matter how many `data: [DONE]` lines
the backend sends.  On the backend stream consisting of the single line
`data: [DONE]` the code writes the termination event twice: once from
`processLine`'s sentinel branch and once more on end-of-input. -/
theorem term_event_not_unique :
    (streamRun ("m") 0 [(("data: [DONE]\n").data)] .eof).countP isTerm = 2 ∧
    (2 : Nat) ≠ 1 :=
  ⟨rfl, by decide⟩

/-- Claim C1, amended: the end-of-input path always writes one termination
event, and each backend `data: [DONE]` line additionally produces one, so a
stream carries `1 + k` termination events where `k` is the number of backend
termination lines — exactly one precisely when the backend sends none. -/
theorem term_event_count (m : String) (now : Nat) (chunks : List (List Char)) :
    (streamRun m now chunks .eof).countP isTerm =
      1 + (allLines chunks.flatten).countP isDoneLine := by
  rw [streamRun_eof_eq, List.countP_append, countTerm_flatten]
  simp [isTerm, List.countP_cons]
  omega

/-- Claim C2, counterexample: the claim says that after a mid-stream
`data: [DONE]` line the read loop exits immediately and later backend lines
are not translated.  In the code the `return` in `processLine` only leaves
that function: on a stream whose first line is the sentinel and whose second
line carries text `Hi`, a content event is still written after the sentinel
event. -/
theorem done_mid_stream_not_break :
    streamRun ("m") 0 [midStreamDone] .eof =
      [Emit.term, Emit.content (mkChunk ("m") 0 (.str ("Hi"))), Emit.term] ∧
    ((streamRun ("m") 0 [midStreamDone] .eof).drop 1).countP isContent = 1 :=
  ⟨rfl, rfl⟩

/-- Claim C2, amended: the streaming path is line-homomorphic — every
complete line of the backend stream, including every line after a mid-stream
`data: [DONE]`, is translated by `processLine` in order, and one final
termination event is appended at end-of-input; a backend sentinel line only
short-circuits processing of that one line. -/
theorem stream_translates_all_lines (m : String) (now : Nat)
    (chunks : List (List Char)) :
    streamRun m now chunks .eof =
      ((allLines chunks.flatten).map (processLine m now)).flatten ++ [Emit.term] :=
  streamRun_eof_eq m now chunks

/-- Claim C3: the Stream Reassembler is segmentation invariant — the lines
delivered to the event translation core are exactly the newline-delimited
lines of the concatenated logical character sequence (with a non-empty
trailing remainder emitted as one final line and whitespace-only lines
discarded), identically for every chunking with the same concatenation; and
after any prefix of the chunks the loop has emitted exactly the complete
lines of the bytes arrived so far, so no line is emitted before all its bytes
have arrived and none is emitted twice. -/
theorem reassembler_segmentation_invariant (chunks : List (List Char)) :
    reassembledLines chunks = (allLines chunks.flatten).filter trimNonempty ∧
    (∀ chunks2 : List (List Char), chunks2.flatten = chunks.flatten →
      reassembledLines chunks2 = reassembledLines chunks) ∧
    ∀ k : Nat, (loopChunks (fun l => [l]) [] (chunks.take k)).2 =
      ((extractAll (chunks.take k).flatten).1).filter trimNonempty := by
  refine ⟨reassembledLines_eq chunks, fun c2 h => ?_, fun k => ?_⟩
  · rw [reassembledLines_eq, reassembledLines_eq, h]
  · rw [loopChunks_eq _ _ [] (by simp)]
    simp only [List.nil_append]
    exact flatten_map_singleton_filter _

/-- Witness for claim C3: byte-per-byte-free concrete segmentations of the
same logical sequence produce the same delivered lines. -/
theorem reassembler_segmentation_invariant_witness :
    reassembledLines [(("a").data), (("b\n").data), (("c").data)] =
      reassembledLines [(("ab\nc").data)] :=
  (reassembler_segmentation_invariant [(("ab\nc").data)]).2.1
    [(("a").data), (("b\n").data), (("c").data)] rfl

/-- Claim C4: a `data: `-prefixed line whose payload fails to parse as JSON
is skipped (zero events) and processing continues: a malformed line
sandwiched between two content-bearing lines yields exactly the two content
events followed by the single termination event — the stream is not
aborted. -/
theorem malformed_line_skipped (m : String) (now : Nat) (l1 l2 p : List Char)
    (r1 r2 : OpenAIChunk)
    (h1 : processLine m now l1 = [Emit.content r1])
    (h2 : processLine m now l2 = [Emit.content r2])
    (hp1 : p ≠ ("[DONE]").data)
    (hp2 : parseJson p = none)
    (hn1 : '\n' ∉ l1) (hnp : '\n' ∉ p) (hn2 : '\n' ∉ l2) :
    processLine m now (dataPre ++ p) = [] ∧
    streamRun m now [l1 ++ '\n' :: ((dataPre ++ p) ++ '\n' :: (l2 ++ ['\n']))] .eof =
      [Emit.content r1, Emit.content r2, Emit.term] := by
  have hskip := processLine_parse_fail m now p hp1 hp2
  refine ⟨hskip, ?_⟩
  rw [streamRun_eof_eq]
  have hnb : '\n' ∉ dataPre ++ p := by
    intro hm
    rcases List.mem_append.mp hm with h | h
    · revert h; decide
    · exact hnp h
  have e2 : extractAll (l2 ++ ['\n']) = ([l2], []) := by
    have h := extractAll_line l2 [] hn2
    simpa [extractAll_nil] using h
  have e1 : extractAll (l1 ++ '\n' :: ((dataPre ++ p) ++ '\n' :: (l2 ++ ['\n']))) =
      ([l1, dataPre ++ p, l2], []) := by
    rw [extractAll_line _ _ hn1, extractAll_line _ _ hnb, e2]
  unfold allLines
  simp only [List.flatten_cons, List.flatten_nil, List.append_nil]
  rw [e1]
  simp [h1, h2, hskip]

/-- A complete content-bearing backend line with text `A`. -/
def validLineA : List Char :=
  ("data: \x7b\"candidates\":[\x7b\"content\":\x7b\"parts\":[\x7b\"text\":\"A\"\x7d]\x7d\x7d]\x7d").data

/-- A complete content-bearing backend line with text `B`. -/
def validLineB : List Char :=
  ("data: \x7b\"candidates\":[\x7b\"content\":\x7b\"parts\":[\x7b\"text\":\"B\"\x7d]\x7d\x7d]\x7d").data

/-- Witness for claim C4 at a concrete malformed line between two valid
content events. -/
theorem malformed_line_skipped_witness :
    processLine ("gemini-pro") 0 (dataPre ++ (("\x7bnot json").data)) = [] ∧
    streamRun ("gemini-pro") 0
      [validLineA ++ '\n' ::
        ((dataPre ++ (("\x7bnot json").data)) ++ '\n' :: (validLineB ++ ['\n']))] .eof =
      [Emit.content (mkChunk ("gemini-pro") 0 (.str ("A"))),
       Emit.content (mkChunk ("gemini-pro") 0 (.str ("B"))), Emit.term] :=
  malformed_line_skipped ("gemini-pro") 0 validLineA validLineB
    (("\x7bnot json").data)
    (mkChunk ("gemini-pro") 0 (.str ("A"))) (mkChunk ("gemini-pro") 0 (.str ("B")))
    rfl rfl (by decide) rfl (by decide) (by decide) (by decide)

/-- Claim C5, counterexample: the claim says every produced record bears the
originally-requested model name.  When the client requests model `gpt-4` the
handler substitutes `gemini-pro` (line 37), and the produced record bears
`gemini-pro`, not the originally-requested name. -/
theorem chunk_model_not_original :
    resolveModel (some ("gpt-4")) = ("gemini-pro") ∧
    processLine (resolveModel (some ("gpt-4"))) 0 (dataPre ++ hiPayload) =
      [Emit.content (mkChunk ("gemini-pro") 0 (.str ("Hi")))] ∧
    (mkChunk ("gemini-pro") 0 (.str ("Hi"))).model ≠ ("gpt-4") := by
  exact ⟨rfl, rfl, by decide⟩

/-- Claim C5, amended: every successfully parsed streaming event whose first
candidate's first part carries non-empty text yields exactly one record with
the timestamp-seeded synthetic id, the resolved model name (the requested
name when it contains `gemini`, else the default `gemini-pro`), a single
choice at index 0 with a null finish reason, and the extracted text verbatim
as the delta; an event with no extractable text yields zero records. -/
theorem chunk_shape (om : Option String) (now : Nat) (p p2 : List Char)
    (j j2 : JValue) (s : String)
    (hp : parseJson p = some j)
    (hx : extractChunkText j = some (.str s))
    (hs : s ≠ "")
    (hp2 : parseJson p2 = some j2)
    (hx2 : extractChunkText j2 = none) :
    processLine (resolveModel om) now (dataPre ++ p) =
      [Emit.content (mkChunk (resolveModel om) now (.str s))] ∧
    (mkChunk (resolveModel om) now (.str s)).id = ("chatcmpl-") ++ toString now ∧
    (mkChunk (resolveModel om) now (.str s)).model = resolveModel om ∧
    (mkChunk (resolveModel om) now (.str s)).choiceIndex = 0 ∧
    (mkChunk (resolveModel om) now (.str s)).finishReason = none ∧
    (mkChunk (resolveModel om) now (.str s)).deltaContent = .str s ∧
    processLine (resolveModel om) now (dataPre ++ p2) = [] := by
  have ht : truthy (.str s) = true := by
    simp only [truthy, bne_iff_ne, ne_eq, decide_eq_true_eq]
    exact hs
  exact ⟨processLine_parsed_some _ now p j _ hp hx ht, rfl, rfl, rfl, rfl, rfl,
    processLine_parsed_none _ now p2 j2 hp2 hx2⟩

/-- Witness for the amended claim C5 at a concrete content event and a
concrete event without text. -/
theorem chunk_shape_witness :
    processLine (resolveModel (some ("gemini-pro"))) 7 (dataPre ++ hiPayload) =
      [Emit.content (mkChunk (resolveModel (some ("gemini-pro"))) 7 (.str ("Hi")))] ∧
    processLine (resolveModel (some ("gemini-pro"))) 7 (dataPre ++ noTextPayload) = [] :=
  ⟨(chunk_shape (some ("gemini-pro")) 7 hiPayload noTextPayload hiJson noTextJson
      ("Hi") rfl rfl (by decide) rfl rfl).1,
   (chunk_shape (some ("gemini-pro")) 7 hiPayload noTextPayload hiJson noTextJson
      ("Hi") rfl rfl (by decide) rfl rfl).2.2.2.2.2.2⟩

/-- Claim C6, counterexample: the claim says the derived temperature equals
the request's temperature whenever one is present.  The code uses `||`, so a
present temperature of `0` is falsy and is replaced by the default `0.7`. -/
theorem temperature_zero_defaulted :
    (convertOpenAIToGoogle ⟨[], none, false, some 0⟩).generationConfig.temperature =
      7 / 10 ∧
    ((7 : Rat) / 10 ≠ 0) ∧
    (⟨[], none, false, some 0⟩ : OpenAIRequest).temperature = some 0 := by
  exact ⟨rfl, by norm_num, rfl⟩

/-- Claim C6, amended: the derived temperature equals the request's
temperature when one is present and non-zero, and equals `0.7` when the
field is absent or equal to `0` (both are falsy under `||`). -/
theorem temperature_translation (r : OpenAIRequest) (t : Rat) :
    (r.temperature = some t → t ≠ 0 →
      (convertOpenAIToGoogle r).generationConfig.temperature = t) ∧
    (r.temperature = some 0 →
      (convertOpenAIToGoogle r).generationConfig.temperature = 7 / 10) ∧
    (r.temperature = none →
      (convertOpenAIToGoogle r).generationConfig.temperature = 7 / 10) := by
  have hbase : (convertOpenAIToGoogle r).generationConfig.temperature =
      jsOrNum r.temperature (7 / 10) := rfl
  refine ⟨fun h1 h2 => ?_, fun h1 => ?_, fun h1 => ?_⟩
  · rw [hbase, h1]; simp [jsOrNum, h2]
  · rw [hbase, h1]; simp [jsOrNum]
  · rw [hbase, h1]; simp [jsOrNum]

/-- Witness for the amended claim C6 at a present non-zero temperature, an
absent temperature, and a present zero temperature. -/
theorem temperature_translation_witness :
    (convertOpenAIToGoogle ⟨[], none, true, some (1 / 2)⟩).generationConfig.temperature =
      1 / 2 ∧
    (convertOpenAIToGoogle ⟨[], none, true, none⟩).generationConfig.temperature =
      7 / 10 ∧
    (convertOpenAIToGoogle ⟨[], none, true, some 0⟩).generationConfig.temperature =
      7 / 10 :=
  ⟨(temperature_translation ⟨[], none, true, some (1 / 2)⟩ (1 / 2)).1 rfl (by norm_num),
   (temperature_translation ⟨[], none, true, none⟩ 0).2.2 rfl,
   (temperature_translation ⟨[], none, true, some 0⟩ 0).2.1 rfl⟩

/-- Claim C7: a non-streaming backend response with no error and a truthy
first-candidate content yields exactly one completion with finish reason
`stop`, the extracted text as the message content, and all usage token
fields equal to the sentinel `-1`. -/
theorem nonstreaming_completion (g : JValue) (m : String) (now : Nat)
    (c : JValue) (s : String)
    (herr : jsField g ("error") = none)
    (hc : googleContent g = some c)
    (htr : truthy c = true)
    (htx : ((jsField c ("parts")).bind jsIndex0).bind (fun v => jsField v ("text")) =
      some (.str s)) :
    convertGoogleToOpenAI g m now =
      .completion (("chatcmpl-") ++ toString now) ((now : Rat) / 1000) m (.str s)
        ("stop") (-1) (-1) (-1) := by
  simp only [convertGoogleToOpenAI, herr, convertNoError, hc, htr, if_true, htx, jsOrJ]
  by_cases hs : s = ""
  · subst hs
    simp [truthy]
  · have h : truthy (.str s) = true := by
      simp only [truthy, bne_iff_ne, ne_eq, decide_eq_true_eq]
      exact hs
    rw [h]
    simp

/-- The end-to-end scenario 3 backend document. -/
def helloResponse : JValue :=
  .obj [(("candidates"),
    .arr [.obj [(("content"),
      .obj [(("parts"), .arr [.obj [(("text"), .str ("Hello"))]])])]])]

/-- Witness for claim C7 at the end-to-end scenario 3 document. -/
theorem nonstreaming_completion_witness :
    convertGoogleToOpenAI helloResponse ("gemini-pro") 0 =
      .completion (("chatcmpl-") ++ toString 0) (((0 : Nat) : Rat) / 1000)
        ("gemini-pro") (.str ("Hello")) ("stop") (-1) (-1) (-1) :=
  nonstreaming_completion helloResponse ("gemini-pro") 0
    (.obj [(("parts"), .arr [.obj [(("text"), .str ("Hello"))]])]) ("Hello")
    rfl rfl rfl rfl

/-- Claim C8: a truthy backend `error` object is translated to an error
envelope (no `choices`, no completion constructor) carrying the backend's
message, the generic `invalid_request_error` tag and the backend's code; no
error but no usable content gives the envelope with the distinct
`invalid_response_error` tag. -/
theorem nonstreaming_error_envelope (g g2 : JValue) (m : String) (now : Nat)
    (e msg code : JValue)
    (h1 : jsField g ("error") = some e) (h2 : truthy e = true)
    (h3 : jsField e ("message") = some msg) (h4 : jsField e ("code") = some code)
    (h5 : jsField g2 ("error") = none) (h6 : googleContent g2 = none) :
    convertGoogleToOpenAI g m now =
      .errorEnv (some msg) ("invalid_request_error") (some code) ∧
    convertGoogleToOpenAI g2 m now =
      .errorEnv (some (.str ("No content generated"))) ("invalid_response_error") none ∧
    ("invalid_request_error" : String) ≠ ("invalid_response_error") := by
  refine ⟨?_, ?_, by decide⟩
  · simp only [convertGoogleToOpenAI, h1, h2, if_true, h3, h4]
  · simp only [convertGoogleToOpenAI, h5, convertNoError, h6]

/-- The end-to-end scenario 4 backend document. -/
def errResponse : JValue :=
  .obj [(("error"), .obj [(("message"), .str ("bad key")), (("code"), .num 400)])]

/-- Witness for claim C8 at the end-to-end scenario 4 document and the empty
object. -/
theorem nonstreaming_error_envelope_witness :
    convertGoogleToOpenAI errResponse ("gemini-pro") 0 =
      .errorEnv (some (.str ("bad key"))) ("invalid_request_error")
        (some (.num 400)) ∧
    convertGoogleToOpenAI (.obj []) ("gemini-pro") 0 =
      .errorEnv (some (.str ("No content generated"))) ("invalid_response_error") none :=
  ⟨(nonstreaming_error_envelope errResponse (.obj []) ("gemini-pro") 0
      (.obj [(("message"), .str ("bad key")), (("code"), .num 400)])
      (.str ("bad key")) (.num 400) rfl rfl rfl rfl rfl rfl).1,
   (nonstreaming_error_envelope errResponse (.obj []) ("gemini-pro") 0
      (.obj [(("message"), .str ("bad key")), (("code"), .num 400)])
      (.str ("bad key")) (.num 400) rfl rfl rfl rfl rfl rfl).2.1⟩

/-- Claim C9: a successfully parsed streaming event whose extracted text is
present but equal to the empty string yields zero records, exactly like an
event with no extractable text — the empty string is falsy, so an empty
delta chunk is never written. -/
theorem empty_text_no_chunk (m : String) (now : Nat) (p p2 : List Char)
    (j j2 : JValue)
    (hp : parseJson p = some j)
    (hx : extractChunkText j = some (.str ("")))
    (hp2 : parseJson p2 = some j2)
    (hx2 : extractChunkText j2 = none) :
    processLine m now (dataPre ++ p) = [] ∧
    processLine m now (dataPre ++ p2) = [] ∧
    processLine m now (dataPre ++ p) = processLine m now (dataPre ++ p2) := by
  have h1 := processLine_parsed_falsy m now p j (.str ("")) hp hx (by decide)
  have h2 := processLine_parsed_none m now p2 j2 hp2 hx2
  exact ⟨h1, h2, h1.trans h2.symm⟩

/-- A backend event payload whose extracted text is the empty string. -/
def emptyTextPayload : List Char :=
  ("\x7b\"candidates\":[\x7b\"content\":\x7b\"parts\":[\x7b\"text\":\"\"\x7d]\x7d\x7d]\x7d").data

/-- The parse of `emptyTextPayload`. -/
def emptyTextJson : JValue :=
  .obj [(("candidates"),
    .arr [.obj [(("content"), .obj [(("parts"),
      .arr [.obj [(("text"), .str (""))]])])]])]

/-- Witness for claim C9 at a concrete empty-text event and a concrete
no-text event. -/
theorem empty_text_no_chunk_witness :
    processLine ("gemini-pro") 3 (dataPre ++ emptyTextPayload) = [] ∧
    processLine ("gemini-pro") 3 (dataPre ++ noTextPayload) = [] :=
  ⟨(empty_text_no_chunk ("gemini-pro") 3 emptyTextPayload noTextPayload
      emptyTextJson noTextJson rfl rfl rfl rfl).1,
   (empty_text_no_chunk ("gemini-pro") 3 emptyTextPayload noTextPayload
      emptyTextJson noTextJson rfl rfl rfl rfl).2.1⟩

/-- Claim C10: on a transport error thrown while reading the backend stream,
the response is ended with exactly the events already written by the loop —
the termination framing of the end-of-input path is skipped (the error-path
termination count is just the number of backend sentinel lines, with no `+1`),
and the end-of-input output is the error-path output plus the remainder
flush plus the single final termination event. -/
theorem transport_error_path (m : String) (now : Nat) (chunks : List (List Char)) :
    streamRun m now chunks .transportError =
      ((extractAll chunks.flatten).1.map (processLine m now)).flatten ∧
    (streamRun m now chunks .transportError).countP isTerm =
      ((extractAll chunks.flatten).1).countP isDoneLine ∧
    streamRun m now chunks .eof =
      streamRun m now chunks .transportError ++
        (if (extractAll chunks.flatten).2 = [] then []
         else processLine m now (extractAll chunks.flatten).2) ++ [Emit.term] := by
  have he := streamRun_err_eq m now chunks
  refine ⟨he, ?_, ?_⟩
  · rw [he, countTerm_flatten]
  · rw [streamRun_eof_eq, he]
    unfold allLines
    by_cases h : (extractAll chunks.flatten).2 = []
    · simp [h]
    · simp [h]

end GeminiProxy
